import Mathlib

/-!
Shallow embedding of `src/parser.ts` of ts-unused-exports: the per-file
parsing/normalization stage that turns parsed source into per-file records
of imports and exports.  Pure functions of the source are translated directly;
external collaborators (the Node `path` library, the TypeScript syntax-tree
API, the filesystem, and the sibling modules `parser.common`, `parser.import`,
`parser.export`, `parser.dynamic`, `types` that are not part of the given
source) are modelled from the specification, each with a doc comment saying so.
JavaScript strings are modelled as Lean `String`; JavaScript truthiness of
strings and of optional values is made explicit.
-/

namespace TsUnusedExports

/-- Does `needle` occur as a contiguous sublist of the character list? -/
def hasInfix (needle : List Char) : List Char → Bool
  | [] => needle.isEmpty
  | c :: rest => needle.isPrefixOf (c :: rest) || hasInfix needle rest

/-- Does `hay` contain `needle` as a substring?  This models the JavaScript
test `hay.indexOf(needle) !== -1`. -/
def strContains (hay needle : String) : Bool :=
  hasInfix needle.data hay.data

/-- Character-list core of the regex replace
`name.replace(/([\\\x2f]index)?\.[^.]*$/, '')` from `extractFilename`
(src/parser.ts line 28): if the string has a dot, drop the final extension
(everything from the last dot on), and also drop a directly preceding
`/index` (or `\index`) segment; a string with no dot is unchanged. -/
def stripExtChars (s : List Char) : List Char :=
  match s.reverse.dropWhile (fun c => c ≠ '.') with
  | [] => s
  | _ :: restRev =>
    let before := restRev.reverse
    if ['/', 'i', 'n', 'd', 'e', 'x'].isSuffixOf before
        || ['\\', 'i', 'n', 'd', 'e', 'x'].isSuffixOf before then
      before.take (before.length - 6)
    else before

/-- Models the external Node `path.relative(rootDir, path)` for the path
shapes exercised here: an empty `rootDir` leaves the path unchanged, and a
`rootDir` that is a proper directory prefix of `path` is stripped. -/
def pathRelative (rootDir path : String) : String :=
  if rootDir = "" then path
  else if (rootDir.data ++ ['/']).isPrefixOf path.data then
    String.mk (path.data.drop (rootDir.data.length + 1))
  else path

/-- Models the external Node `path.resolve(rootDir, p)` for the path shapes
exercised here: an already absolute `p` is returned as is, otherwise it is
joined onto `rootDir`. -/
def pathResolve (rootDir p : String) : String :=
  if ['/'].isPrefixOf p.data then p
  else if rootDir = "" then p
  else rootDir ++ "/" ++ p

/-- Split a character list at every occurrence of the separator character. -/
def splitOnChar (sep : Char) : List Char → List (List Char)
  | [] => [[]]
  | c :: rest =>
    let r := splitOnChar sep rest
    if c = sep then [] :: r
    else
      match r with
      | [] => [[c]]
      | g :: gs => (c :: g) :: gs

/-- Join character-list segments with `/` separators. -/
def joinSlash (segs : List (List Char)) : List Char :=
  (segs.intersperse ['/']).flatten

/-- Embeds `extractFilename` (src/parser.ts lines 27-38): take the path
relative to `rootDir`, apply the regex replace stripping an optional `/index`
segment plus the final extension, then drop a remaining trailing `.d`
(`name.match(/\.d$/)` followed by `name.substr(0, name.length - 2)`). -/
def extractFilename (rootDir path : String) : String :=
  let name := stripExtChars (pathRelative rootDir path).data
  if ['.', 'd'].isSuffixOf name then
    String.mk (name.take (name.length - 2))
  else
    String.mk name

/-- The relevant values of the TypeScript `ts.SyntaxKind` enumeration: the
four statement kinds `mapFile` dispatches on, the two modifier kinds it
queries, and a catch-all for every other kind. -/
inductive SyntaxKind where
  | importDeclaration
  | exportAssignment
  | exportDeclaration
  | exportKeyword
  | defaultKeyword
  | otherKind
deriving DecidableEq

/-- Modelled from the spec: the payload of an import or re-export construct
is either the wildcard marker or a finite list of names (parser.common's
`FromWhat.what`, with `star` the wildcard marker constant; the source
compares against the marker with `what == star`). -/
inductive ExportedWhat where
  | star
  | names (ws : List String)
deriving DecidableEq

/-- Modelled from the spec: parser.common's `FromWhat` descriptor — the raw
module specifier together with what is imported from it. -/
structure FromWhat where
  from_ : String
  what : ExportedWhat
deriving DecidableEq

/-- Modelled from the spec: the wildcard marker is stored in `imports` as the
one-element name list containing `*` (parser.common's `star` constant). -/
def whatToList : ExportedWhat → List String
  | ExportedWhat.star => ["*"]
  | ExportedWhat.names ws => ws

/-- A top-level statement node as seen through the external TypeScript
syntax-tree API.  `kind`, `modifiers` and `moduleSpecifier` are the node's own
observable attributes; `comments` holds the texts of the leading comment
ranges in source order (modelling `ts.getLeadingCommentRanges` plus the text
substring lookup); the remaining fields record what the external extractor
primitives (`extractImport`, `extractExportFromImport`,
`extractExportStatement`, `mayContainDynamicImports`/`addDynamicImports`,
`extractExport` — all outside the given source) would return for the node. -/
structure Node where
  kind : SyntaxKind
  comments : List String
  modifiers : List SyntaxKind
  importFw : FromWhat
  moduleSpecifier : Option String
  exportFw : FromWhat
  localExports : List String
  mayDynamic : Bool
  dynamicImports : List FromWhat
  declName : Option String
  extractedName : String
  pos : Nat
deriving DecidableEq

/-- A parsed source file: its list of top-level statements (the children the
source walks with `ts.forEachChild`). -/
structure SourceFile where
  statements : List Node
deriving DecidableEq

/-- Modelled from the spec: `types.LocationInFile` — diagnostic (name, span)
metadata attached to an export. -/
structure LocationInFile where
  name : String
  pos : Nat
deriving DecidableEq

/-- `types.Imports` (not in the given source): a mapping from resolved module
key to the list of imported names, with unique keys; modelled as an
association list in insertion order. -/
abbrev Imports := List (String × List String)

/-- The output record of `mapFile` (`types.File`). -/
structure File where
  path : String
  fullPath : String
  imports : Imports
  exports : List String
  exportLocations : List LocationInFile
deriving DecidableEq

/-- Embeds `hasModifier` (src/parser.ts lines 24-25): does the node carry the
given modifier kind (`node.modifiers.filter(m => m.kind === mod).length > 0`;
an absent modifier list is the empty list, falsy either way)? -/
def hasModifier (node : Node) (mod : SyntaxKind) : Bool :=
  (node.modifiers.filter (fun m => m = mod)).length > 0

/-- The single recognized suppression directive text. -/
def disableComment : String := "// ts-unused-exports:disable-next-line"

/-- Embeds `isNodeDisabledViaComment` (src/parser.ts lines 40-60): take the
leading comment ranges of the node; if there are none, the node is enabled;
otherwise the node is disabled exactly when the closest (last) preceding
comment text equals the directive literal character for character. -/
def isNodeDisabledViaComment (node : Node) : Bool :=
  match node.comments.getLast? with
  | some commentText => commentText = disableComment
  | none => false

/-- Modelled from the spec: `extractImport` of parser.import — converts a
plain import declaration into its `FromWhat` descriptor. -/
def extractImport (node : Node) : FromWhat :=
  node.importFw

/-- Modelled from the spec: `extractExportFromImport` of parser.export —
converts a re-export-from declaration and its module specifier into a
`FromWhat` descriptor (the wildcard form yields the `star` marker). -/
def extractExportFromImport (node : Node) (_moduleSpecifier : String) : FromWhat :=
  node.exportFw

/-- Modelled from the spec: `extractExportStatement` of parser.export — the
list of exported names of a local (specifier-less) export declaration, with
`b as c` contributing `c`. -/
def extractExportStatement (node : Node) : List String :=
  node.localExports

/-- Modelled from the spec: `mayContainDynamicImports` of parser.dynamic —
the cheap structural pre-check that gates the deep dynamic-import scan. -/
def mayContainDynamicImports (node : Node) : Bool :=
  node.mayDynamic

/-- Modelled from the spec: `extractExport` of parser.export — the derived
name of an exported statement without a declared name (a synthesized name for
anonymous exported expressions). -/
def extractExport (_path : String) (node : Node) : String :=
  node.extractedName

/-- JavaScript truthiness of a `string | undefined` value: `undefined` and
the empty string are falsy. -/
def jsTruthyStr : Option String → Bool
  | none => false
  | some s => s ≠ ""

/-- The directory segments of a path: all `/`-separated segments but the
last.  Models the directory part used for relative specifier resolution. -/
def dirSegments (path : String) : List (List Char) :=
  (splitOnChar '/' path.data).dropLast

/-- Resolve the `/`-separated segments of a relative specifier against base
directory segments, interpreting `.` (and empty segments) as no-ops and `..`
as stepping up one directory. -/
def resolveSegments (base : List (List Char)) (segs : List (List Char)) : List (List Char) :=
  segs.foldl
    (fun acc seg =>
      if seg = ['.'] || seg = [] then acc
      else if seg = ['.', '.'] then acc.dropLast
      else acc ++ [seg])
    base

/-- Resolve a relative module specifier against the directory of the file
that imports it, producing a path in the same form as `fromFile`. -/
def resolveRelative (fromFile specifier : String) : String :=
  String.mk (joinSlash (resolveSegments (dirSegments fromFile) (splitOnChar '/' specifier.data)))

/-- Insert an import under a resolved key, merging the imported names into an
existing entry for that key (keys stay unique, insertion order kept). -/
def insertImport : Imports → String → List String → Imports
  | [], key, what => [(key, what)]
  | kv :: rest, key, what =>
    if kv.1 = key then (kv.1, kv.2 ++ what) :: rest
    else kv :: insertImport rest key what

/-- Modelled from the spec: the external tsconfig-paths matcher
(`tsconfigPaths.createMatchPath`): try each alias pattern against the
specifier in table order; on the first match, substitute the captured text
into the first candidate physical path under `baseDir` (existence checks are
an external filesystem concern). -/
def matchPattern (pattern specifier : String) : Option String :=
  let sd := specifier.data
  match splitOnChar '*' pattern.data with
  | [exact] => if sd = exact then some "" else none
  | [pre, post] =>
    if pre.isPrefixOf sd && post.isSuffixOf sd
        && pre.length + post.length ≤ sd.length then
      some (String.mk ((sd.drop pre.length).take (sd.length - pre.length - post.length)))
    else none
  | _ => none

/-- Modelled from the spec: alias table used by the matcher — each alias
pattern maps to an ordered list of candidate physical-path patterns. -/
abbrev PathsTable := List (String × List String)

/-- Modelled from the spec: build the alias matcher from a base directory and
an alias table (see `matchPattern`). -/
def createMatchPath (baseDir : String) (ps : PathsTable) (specifier : String) : Option String :=
  ps.findSome? fun pc =>
    match matchPattern pc.1 specifier with
    | none => none
    | some captured =>
      match pc.2 with
      | [] => none
      | cand :: _ =>
        some (baseDir ++ "/"
          ++ String.mk (((splitOnChar '*' cand.data).intersperse captured.data).flatten))

/-- Modelled from the spec: `addImportCore` of parser.import
(ModuleSpecifierResolver, spec section 4.3).  Resolve the descriptor's raw
specifier — through the alias matcher when one is configured, else relatively
when the specifier is relative; a bare package specifier yields no key —
normalize the resolved path into the module key with the same normalizer as
`File.path`, register the imported names into `imports` under that key
(merging with an existing entry), and return the key. -/
def resolveSpecifier (specifier path : String)
    (matcher : Option (String → Option String)) : Option String :=
  let resolvedByMatcher : Option String :=
    match matcher with
    | some m => m specifier
    | none => none
  match resolvedByMatcher with
  | some r => some r
  | none =>
    if ['.'].isPrefixOf specifier.data then some (resolveRelative path specifier)
    else none

/-- Registration part of `addImportCore`: resolve, normalize into the module
key, merge the imported names under that key, and return the key. -/
def addImportCore (fw : FromWhat) (rootDir path : String)
    (matcher : Option (String → Option String)) (imports : Imports) :
    Option String × Imports :=
  match resolveSpecifier fw.from_ path matcher with
  | none => (none, imports)
  | some r =>
    let key := extractFilename rootDir r
    (some key, insertImport imports key (whatToList fw.what))

/-- The accumulating state of one `mapFile` run: the three per-file
collections the statement walk appends to. -/
structure MapState where
  imports : Imports
  exports : List String
  exportLocations : List LocationInFile
deriving DecidableEq

/-- Modelled from the spec: `addExportCore` of parser.export — append the
export name to `exports` and a (name, span) entry to `exportLocations`. -/
def addExportCore (exportName : String) (node : Node)
    (exportLocations : List LocationInFile) (exports : List String) :
    List LocationInFile × List String :=
  (exportLocations ++ [⟨exportName, node.pos⟩], exports ++ [exportName])

/-- The `addExport` closure of `mapFile` (src/parser.ts lines 91-93), as a
state transformer. -/
def addExport (st : MapState) (exportName : String) (node : Node) : MapState :=
  let r := addExportCore exportName node st.exportLocations st.exports
  { st with exportLocations := r.1, exports := r.2 }

/-- The body of the `ts.forEachChild` callback of `mapFile` (src/parser.ts
lines 95-149), as a state transformer over one top-level statement:
a statement disabled via comment is skipped entirely; otherwise the statement
is dispatched on its kind — plain import, export assignment, export
declaration without/with module specifier, each branch returning — and any
remaining statement goes through the gated dynamic-import scan and then the
export-modifier handling. -/
def mapNode (rootDir path : String) (matcher : Option (String → Option String))
    (st : MapState) (node : Node) : MapState :=
  if isNodeDisabledViaComment node then st
  else if node.kind = SyntaxKind.importDeclaration then
    { st with imports := (addImportCore (extractImport node) rootDir path matcher st.imports).2 }
  else if node.kind = SyntaxKind.exportAssignment then
    addExport st "default" node
  else if node.kind = SyntaxKind.exportDeclaration then
    match node.moduleSpecifier with
    | none => (extractExportStatement node).foldl (fun s e => addExport s e node) st
    | some specifier =>
      let fw := extractExportFromImport node specifier
      let r := addImportCore fw rootDir path matcher st.imports
      let st1 := { st with imports := r.2 }
      if jsTruthyStr r.1 then
        match fw.what with
        | ExportedWhat.star => addExport st1 ("*:" ++ r.1.getD "") node
        | ExportedWhat.names ws => { st1 with exports := st1.exports ++ ws }
      else st1
  else
    let st1 :=
      if mayContainDynamicImports node then
        { st with imports :=
            (node.dynamicImports.foldl
              (fun imps fw => (addImportCore fw rootDir path matcher imps).2)
              st.imports) }
      else st
    if hasModifier node SyntaxKind.exportKeyword then
      if hasModifier node SyntaxKind.defaultKeyword then
        addExport st1 "default" node
      else
        let nm := match node.declName with
          | some n => n
          | none => extractExport path node
        if nm ≠ "" then addExport st1 nm node else st1
    else st1

/-- Embeds `mapFile` (src/parser.ts lines 62-158): build the (optional) alias
matcher from `baseUrl` and `paths`, walk the top-level statements
accumulating imports, exports and export locations, and assemble the `File`
record with the normalized path and the original full path. -/
def mapFile (rootDir path : String) (file : SourceFile)
    (baseUrl : Option String) (paths : Option PathsTable) : File :=
  let name := extractFilename rootDir path
  let baseDir : Option String :=
    match baseUrl with
    | some b => if b = "" then none else some (pathResolve rootDir b)
    | none => none
  let matcher : Option (String → Option String) :=
    match baseDir, paths with
    | some bd, some ps => some (fun specifier => createMatchPath bd ps specifier)
    | _, _ => none
  let st := file.statements.foldl (mapNode rootDir path matcher) ⟨[], [], []⟩
  { path := name
    fullPath := path
    imports := st.imports
    exports := st.exports
    exportLocations := st.exportLocations }

/-- The failures of the spec's error model that can occur while producing the
syntax tree of one file: the path is unreadable (`readFileSync` throwing) or
the source is malformed (`ts.createSourceFile` failing). -/
inductive ParseErr where
  | fileReadError (path : String)
  | parseError (path : String)
deriving DecidableEq

/-- The external filesystem-plus-parser oracle: for an absolute path, either
the parsed syntax tree of the file's text or the thrown error. -/
abbrev FsOracle := String → Except ParseErr SourceFile

/-- JavaScript `Array.prototype.map` with a callback that may throw: the
first thrown error propagates and no partial output array is produced. -/
def mapExcept (f : α → Except ParseErr β) : List α → Except ParseErr (List β)
  | [] => Except.ok []
  | x :: xs =>
    match f x with
    | Except.error e => Except.error e
    | Except.ok y =>
      match mapExcept f xs with
      | Except.error e => Except.error e
      | Except.ok ys => Except.ok (y :: ys)

/-- Embeds `parseFile` (src/parser.ts lines 160-177): read and parse the file
at `path` (the oracle models `readFileSync` + `ts.createSourceFile`; a thrown
error propagates uncaught) and hand the tree to `mapFile`. -/
def parseFile (rootDir path : String) (baseUrl : Option String)
    (paths : Option PathsTable) (fs : FsOracle) : Except ParseErr File :=
  match fs path with
  | Except.error e => Except.error e
  | Except.ok sourceFile => Except.ok (mapFile rootDir path sourceFile baseUrl paths)

/-- `types.TsConfig` (not in the given source): base URL, the ordered file
list, and the optional alias table. -/
structure TsConfig where
  baseUrl : Option String
  files : List String
  paths : Option PathsTable

/-- `types.ExtraCommandLineOptions` (not in the given source), restricted to
the field this stage reads: the optional `excludeDeclarationFiles` flag. -/
structure ExtraCommandLineOptions where
  excludeDeclarationFiles : Option Bool

/-- The `includeDeclarationFiles` flag of `parsePaths` (src/parser.ts lines
184-185): the JavaScript expression
`extraOptions && !extraOptions.excludeDeclarationFiles` is falsy when
`extraOptions` is absent, and otherwise true exactly when
`excludeDeclarationFiles` is absent or false. -/
def includeDeclarationFilesFlag (extraOptions : Option ExtraCommandLineOptions) : Bool :=
  match extraOptions with
  | none => false
  | some o => !(o.excludeDeclarationFiles.getD false)

/-- The file-list filter of `parsePaths` (src/parser.ts lines 187-188): keep
a path when the flag is set or when the path does not contain `.d.` anywhere
(`p.indexOf('.d.') === -1`). -/
def survivingPaths (extraOptions : Option ExtraCommandLineOptions)
    (filePaths : List String) : List String :=
  filePaths.filter
    (fun p => includeDeclarationFilesFlag extraOptions || !(strContains p ".d."))

/-- Embeds `parsePaths` (src/parser.ts lines 179-192): filter the configured
file list by the declaration-file policy, then map each surviving path —
resolved against `rootDir` — through `parseFile`, in order; a thrown error
aborts the whole mapping. -/
def parsePaths (rootDir : String) (tsConfig : TsConfig)
    (extraOptions : Option ExtraCommandLineOptions) (fs : FsOracle) :
    Except ParseErr (List File) :=
  mapExcept
    (fun path => parseFile rootDir (pathResolve rootDir path) tsConfig.baseUrl tsConfig.paths fs)
    (survivingPaths extraOptions tsConfig.files)

/-! Helper lemmas shared by the claim theorems. -/

/-- A statement whose map step fails propagates: if any element of the list
makes the callback throw, the whole mapping returns an error. -/
theorem mapExcept_error_of_mem {α β : Type} {f : α → Except ParseErr β} {l : List α}
    {x : α} {e : ParseErr} (hx : x ∈ l) (hf : f x = Except.error e) :
    ∃ e2, mapExcept f l = Except.error e2 := by
  induction l with
  | nil => cases hx
  | cons y ys ih =>
    cases hx with
    | head => exact ⟨e, by simp [mapExcept, hf]⟩
    | tail _ hmem =>
      cases hfy : f y with
      | error e3 => exact ⟨e3, by simp [mapExcept, hfy]⟩
      | ok b =>
        obtain ⟨e2, h2⟩ := ih hmem
        exact ⟨e2, by simp [mapExcept, hfy, h2]⟩

/-- A successful exception-propagating map is an elementwise map: any
per-element consequence of success transfers to the output list. -/
theorem mapExcept_ok_map {α β γ : Type} {f : α → Except ParseErr β} {g : β → γ} {h2 : α → γ}
    (hgh : ∀ x y, f x = Except.ok y → g y = h2 x) :
    ∀ {l : List α} {out : List β}, mapExcept f l = Except.ok out → out.map g = l.map h2 := by
  intro l
  induction l with
  | nil =>
    intro out hout
    simp [mapExcept] at hout
    simp [hout]
  | cons x xs ih =>
    intro out hout
    cases hfx : f x with
    | error e => simp [mapExcept, hfx] at hout
    | ok y =>
      cases hm : mapExcept f xs with
      | error e => simp [mapExcept, hfx, hm] at hout
      | ok ys =>
        simp [mapExcept, hfx, hm] at hout
        subst hout
        simp [hgh x y hfx, ih hm]

/-- The `File` produced by a successful `parseFile` carries the exact path it
was invoked with as its `fullPath`. -/
theorem parseFile_fullPath {rootDir path : String} {baseUrl : Option String}
    {paths : Option PathsTable} {fs : FsOracle} {f : File}
    (h : parseFile rootDir path baseUrl paths fs = Except.ok f) : f.fullPath = path := by
  cases hfs : fs path with
  | error e => simp [parseFile, hfs] at h
  | ok sf =>
    simp [parseFile, hfs] at h
    subst h
    rfl

/-- Inserting under a key leaves the key present in the import map. -/
theorem insertImport_hasKey (imports : Imports) (key : String) (what : List String) :
    ∃ vs, (key, vs) ∈ insertImport imports key what := by
  induction imports with
  | nil => exact ⟨what, by simp [insertImport]⟩
  | cons kv rest ih =>
    by_cases h : kv.1 = key
    · exact ⟨kv.2 ++ what, by simp [insertImport, h]⟩
    · obtain ⟨vs, hvs⟩ := ih
      exact ⟨vs, by simp [insertImport, h, hvs]⟩

/-- When `addImportCore` resolves a key, that key has an entry in the
returned import map. -/
theorem addImportCore_hasKey {fw : FromWhat} {rootDir path : String}
    {matcher : Option (String → Option String)} {imports : Imports} {k : String}
    (h : (addImportCore fw rootDir path matcher imports).1 = some k) :
    ∃ vs, (k, vs) ∈ (addImportCore fw rootDir path matcher imports).2 := by
  unfold addImportCore at h ⊢
  cases hr : resolveSpecifier fw.from_ path matcher with
  | none => simp [hr] at h
  | some r =>
    simp [hr] at h ⊢
    subst h
    exact insertImport_hasKey imports _ (whatToList fw.what)

/-- A disabled statement is skipped entirely: the map step is the identity. -/
theorem mapNode_disabled {rootDir path : String}
    {matcher : Option (String → Option String)} {st : MapState} {node : Node}
    (h : isNodeDisabledViaComment node = true) :
    mapNode rootDir path matcher st node = st := by
  simp [mapNode, h]

/-! Claim theorems. -/

/-- C1, counterexample: the claim says a declaration-marked path is included
whenever `excludeDeclarationFiles` is unset, including when the whole options
record is absent; but with the options record absent,
`extraOptions && !extraOptions.excludeDeclarationFiles` is falsy, so
`parsePaths` drops the declaration path `a.d.ts` and returns the empty
sequence — while the same call with an options record present and the flag
unset does return the file. -/
theorem c1_counterexample :
    parsePaths "" ⟨none, ["a.d.ts"], none⟩ none (fun _ => Except.ok ⟨[]⟩) = Except.ok []
    ∧ parsePaths "" ⟨none, ["a.d.ts"], none⟩ (some ⟨none⟩) (fun _ => Except.ok ⟨[]⟩)
        = Except.ok [⟨"a", "a.d.ts", [], [], []⟩] := by
  exact ⟨rfl, rfl⟩

/-- C1 (amended): `parsePaths` keeps a declaration-marked path in the
processed list exactly when the options record is present with
`excludeDeclarationFiles` unset or false; it drops the path both when
`excludeDeclarationFiles` is true and when the whole options record is
absent. -/
theorem c1_declarationFilter (files : List String) (p : String)
    (hp : p ∈ files) (hd : strContains p ".d." = true) :
    p ∈ survivingPaths (some ⟨none⟩) files
    ∧ p ∈ survivingPaths (some ⟨some false⟩) files
    ∧ p ∉ survivingPaths (some ⟨some true⟩) files
    ∧ p ∉ survivingPaths none files := by
  refine ⟨?_, ?_, ?_, ?_⟩ <;>
    simp [survivingPaths, includeDeclarationFilesFlag, List.mem_filter, hp, hd]

/-- Witness for C1 at the concrete declaration path `a.d.ts`. -/
theorem c1_declarationFilter_witness :
    "a.d.ts" ∈ survivingPaths (some ⟨none⟩) ["a.d.ts"]
    ∧ "a.d.ts" ∈ survivingPaths (some ⟨some false⟩) ["a.d.ts"]
    ∧ "a.d.ts" ∉ survivingPaths (some ⟨some true⟩) ["a.d.ts"]
    ∧ "a.d.ts" ∉ survivingPaths none ["a.d.ts"] :=
  c1_declarationFilter ["a.d.ts"] "a.d.ts" (by decide) (by decide)

/-- C2, counterexample: the claim says `foo/index.d.ts` normalizes to `foo`,
but `extractFilename` strips the `/index` segment only when it directly
precedes the final extension, so `foo/index.d.ts` loses only `.ts`, then the
trailing `.d`, leaving `foo/index`. -/
theorem c2_counterexample :
    extractFilename "" "foo/index.d.ts" = "foo/index"
    ∧ extractFilename "" "foo/index.d.ts" ≠ "foo" := by
  exact ⟨by decide, by decide⟩

/-- C2 (amended): relative to the same root, `foo/index.ts` and `foo.ts`
both normalize to `foo`, but `foo/index.d.ts` normalizes to `foo/index`
because the `/index` strip applies only when `/index` is directly followed
by the final extension. -/
theorem c2_extractFilename (rootDir : String) (h : rootDir = "") :
    extractFilename rootDir "foo/index.ts" = "foo"
    ∧ extractFilename rootDir "foo.ts" = "foo"
    ∧ extractFilename rootDir "foo/index.d.ts" = "foo/index" := by
  subst h
  exact ⟨by decide, by decide, by decide⟩

/-- Witness for C2 at the empty root directory. -/
theorem c2_extractFilename_witness :
    extractFilename "" "foo/index.ts" = "foo"
    ∧ extractFilename "" "foo.ts" = "foo"
    ∧ extractFilename "" "foo/index.d.ts" = "foo/index" :=
  c2_extractFilename "" rfl

/-- C9 (confirmed): when the declaration-file filter is active (the
`includeDeclarationFiles` flag is falsy), `parsePaths` drops every path
containing the substring `.d.` anywhere — the test is
`p.indexOf('.d.') === -1`, not a final-extension check — so
`foo.d.backup.ts` or a path with a `.d.`-containing directory segment is
excluded as well. -/
theorem c9_dotDFilter (extraOptions : Option ExtraCommandLineOptions)
    (files : List String) (p : String)
    (hflag : includeDeclarationFilesFlag extraOptions = false)
    (hd : strContains p ".d." = true) :
    p ∉ survivingPaths extraOptions files := by
  intro hmem
  rw [survivingPaths, List.mem_filter] at hmem
  rw [hflag, hd] at hmem
  simp at hmem

/-- Witness for C9: `foo.d.backup.ts` (whose final extension is not a
declaration marker) and a path whose directory segment contains `.d.` are
both dropped when the filter is active. -/
theorem c9_dotDFilter_witness :
    "foo.d.backup.ts" ∉ survivingPaths (some ⟨some true⟩) ["a.ts", "foo.d.backup.ts"]
    ∧ "x.d.dir/y.ts" ∉ survivingPaths (some ⟨some true⟩) ["x.d.dir/y.ts"] :=
  ⟨c9_dotDFilter (some ⟨some true⟩) ["a.ts", "foo.d.backup.ts"] "foo.d.backup.ts"
      (by decide) (by decide),
    c9_dotDFilter (some ⟨some true⟩) ["x.d.dir/y.ts"] "x.d.dir/y.ts"
      (by decide) (by decide)⟩

/-- C6 (confirmed): if reading or parsing any single surviving configured
file fails, `parsePaths` propagates a failure and returns no result at all —
in particular it never returns a partial sequence of `File` records for the
other files. -/
theorem c6_failurePropagates (rootDir : String) (tsConfig : TsConfig)
    (extraOptions : Option ExtraCommandLineOptions) (fs : FsOracle)
    (p : String) (e : ParseErr)
    (hp : p ∈ survivingPaths extraOptions tsConfig.files)
    (hf : fs (pathResolve rootDir p) = Except.error e) :
    (∃ e2, parsePaths rootDir tsConfig extraOptions fs = Except.error e2)
    ∧ ∀ out, parsePaths rootDir tsConfig extraOptions fs ≠ Except.ok out := by
  have herr :
      parseFile rootDir (pathResolve rootDir p) tsConfig.baseUrl tsConfig.paths fs
        = Except.error e := by
    simp [parseFile, hf]
  obtain ⟨e2, h2⟩ :=
    @mapExcept_error_of_mem String File
      (fun q => parseFile rootDir (pathResolve rootDir q) tsConfig.baseUrl tsConfig.paths fs)
      (survivingPaths extraOptions tsConfig.files) p e hp herr
  refine ⟨⟨e2, h2⟩, ?_⟩
  intro out hok
  rw [parsePaths] at hok
  rw [h2] at hok
  cases hok

/-- Witness for C6: a two-file list whose second file fails to read yields an
error result, never a one-element partial list. -/
theorem c6_failurePropagates_witness :
    (∃ e2,
        parsePaths "" ⟨none, ["good.ts", "bad.ts"], none⟩ none
          (fun q => if q = "bad.ts" then Except.error (ParseErr.fileReadError "bad.ts")
            else Except.ok ⟨[]⟩)
          = Except.error e2)
    ∧ ∀ out,
        parsePaths "" ⟨none, ["good.ts", "bad.ts"], none⟩ none
          (fun q => if q = "bad.ts" then Except.error (ParseErr.fileReadError "bad.ts")
            else Except.ok ⟨[]⟩)
          ≠ Except.ok out :=
  c6_failurePropagates "" ⟨none, ["good.ts", "bad.ts"], none⟩ none
    (fun q => if q = "bad.ts" then Except.error (ParseErr.fileReadError "bad.ts")
      else Except.ok ⟨[]⟩)
    "bad.ts" (ParseErr.fileReadError "bad.ts") (by decide) (by rfl)

/-- C8 (confirmed): a successful `parsePaths` run returns exactly one `File`
per surviving entry of the configured `files` list, in the same relative
order, with no sorting and no removal of duplicate paths: the sequence of
produced `fullPath`s equals the surviving input paths resolved against the
root, elementwise. -/
theorem c8_orderPreserved (rootDir : String) (tsConfig : TsConfig)
    (extraOptions : Option ExtraCommandLineOptions) (fs : FsOracle) (out : List File)
    (h : parsePaths rootDir tsConfig extraOptions fs = Except.ok out) :
    out.map File.fullPath
      = (survivingPaths extraOptions tsConfig.files).map (pathResolve rootDir) := by
  rw [parsePaths] at h
  exact mapExcept_ok_map (fun x y hxy => parseFile_fullPath hxy) h

/-- Witness for C8: a file list with a duplicated path maps to one `File` per
occurrence, in input order. -/
theorem c8_orderPreserved_witness :
    ([⟨"b", "b.ts", [], [], []⟩, ⟨"a", "a.ts", [], [], []⟩, ⟨"a", "a.ts", [], [], []⟩]
        : List File).map File.fullPath
      = (survivingPaths none ["b.ts", "a.ts", "a.ts"]).map (pathResolve "") :=
  c8_orderPreserved "" ⟨none, ["b.ts", "a.ts", "a.ts"], none⟩ none
    (fun _ => Except.ok ⟨[]⟩)
    [⟨"b", "b.ts", [], [], []⟩, ⟨"a", "a.ts", [], [], []⟩, ⟨"a", "a.ts", [], [], []⟩]
    (by rfl)

/-- C3 (confirmed): a statement whose closest preceding comment is
character-for-character the directive literal contributes nothing: its map
step is the identity on imports, exports and export locations, and the whole
`mapFile` result equals the result with the statement removed; with any other
closest preceding comment (near-misses included), extraction is unaffected —
the step equals the step on the same statement with its comments erased. -/
theorem c3_suppressionDirective (rootDir path : String)
    (matcher : Option (String → Option String)) (st : MapState) (node : Node) :
    (node.comments.getLast? = some disableComment →
        mapNode rootDir path matcher st node = st)
    ∧ (node.comments.getLast? = some disableComment →
        ∀ (pre post : List Node) (baseUrl : Option String) (paths : Option PathsTable),
          mapFile rootDir path ⟨pre ++ node :: post⟩ baseUrl paths
            = mapFile rootDir path ⟨pre ++ post⟩ baseUrl paths)
    ∧ (node.comments.getLast? ≠ some disableComment →
        mapNode rootDir path matcher st node
          = mapNode rootDir path matcher st { node with comments := [] }) := by
  have hdis : node.comments.getLast? = some disableComment →
      isNodeDisabledViaComment node = true := by
    intro h
    simp [isNodeDisabledViaComment, h]
  refine ⟨fun h => mapNode_disabled (hdis h), fun h pre post baseUrl paths => ?_, fun h => ?_⟩
  · simp only [mapFile]
    rw [List.foldl_append, List.foldl_append, List.foldl_cons, mapNode_disabled (hdis h)]
  · have h1 : isNodeDisabledViaComment node = false := by
      unfold isNodeDisabledViaComment
      cases hc : node.comments.getLast? with
      | none => rfl
      | some c =>
        have hcc : c ≠ disableComment := fun hcc => h (by rw [hc, hcc])
        simp [hcc]
    obtain ⟨k, cs, ms, ifw, msp, efw, les, md, dyn, dn, en, pos⟩ := node
    have h2 : isNodeDisabledViaComment ⟨k, [], ms, ifw, msp, efw, les, md, dyn, dn, en, pos⟩
        = false := rfl
    unfold mapNode
    rw [h1, h2]
    rfl

/-- Witness for C3: a disabled export assignment contributes nothing, and a
near-miss comment (trailing space) changes nothing relative to having no
comment at all. -/
theorem c3_suppressionDirective_witness :
    mapNode "" "a.ts" none ⟨[], [], []⟩
        ⟨SyntaxKind.exportAssignment, ["// ts-unused-exports:disable-next-line"], [],
          ⟨"", ExportedWhat.names []⟩, none, ⟨"", ExportedWhat.names []⟩, [], false, [],
          none, "", 0⟩
      = ⟨[], [], []⟩
    ∧ mapNode "" "a.ts" none ⟨[], [], []⟩
        ⟨SyntaxKind.exportAssignment, ["// ts-unused-exports:disable-next-line "], [],
          ⟨"", ExportedWhat.names []⟩, none, ⟨"", ExportedWhat.names []⟩, [], false, [],
          none, "", 0⟩
      = mapNode "" "a.ts" none ⟨[], [], []⟩
          ⟨SyntaxKind.exportAssignment, [], [],
            ⟨"", ExportedWhat.names []⟩, none, ⟨"", ExportedWhat.names []⟩, [], false, [],
            none, "", 0⟩ :=
  ⟨(c3_suppressionDirective "" "a.ts" none ⟨[], [], []⟩
      ⟨SyntaxKind.exportAssignment, ["// ts-unused-exports:disable-next-line"], [],
        ⟨"", ExportedWhat.names []⟩, none, ⟨"", ExportedWhat.names []⟩, [], false, [],
        none, "", 0⟩).1 (by decide),
    (c3_suppressionDirective "" "a.ts" none ⟨[], [], []⟩
      ⟨SyntaxKind.exportAssignment, ["// ts-unused-exports:disable-next-line "], [],
        ⟨"", ExportedWhat.names []⟩, none, ⟨"", ExportedWhat.names []⟩, [], false, [],
        none, "", 0⟩).2.2 (by decide)⟩

/-- C4 (confirmed): a wildcard re-export `export * from './m'` appends
exactly one export entry — the wildcard marker `*:` concatenated with the
resolved module key of `./m` — together with its one location entry, and
registers the import; no individual names of `./m` are appended. -/
theorem c4_wildcardReExport (rootDir path : String)
    (matcher : Option (String → Option String)) (st : MapState) (node : Node) (k : String)
    (hkind : node.kind = SyntaxKind.exportDeclaration)
    (hspec : node.moduleSpecifier = some "./m")
    (hfw : node.exportFw = ⟨"./m", ExportedWhat.star⟩)
    (hdis : isNodeDisabledViaComment node = false)
    (hkey : (addImportCore ⟨"./m", ExportedWhat.star⟩ rootDir path matcher st.imports).1
      = some k)
    (hk : k ≠ "") :
    (mapNode rootDir path matcher st node).exports = st.exports ++ ["*:" ++ k]
    ∧ (mapNode rootDir path matcher st node).imports
        = (addImportCore ⟨"./m", ExportedWhat.star⟩ rootDir path matcher st.imports).2
    ∧ (mapNode rootDir path matcher st node).exportLocations
        = st.exportLocations ++ [⟨"*:" ++ k, node.pos⟩] := by
  refine ⟨?_, ?_, ?_⟩ <;>
    simp [mapNode, hkind, hspec, hfw, hdis, extractExportFromImport, hkey,
      jsTruthyStr, hk, addExport, addExportCore]

/-- Witness for C4 at a concrete wildcard re-export statement in `a.ts`. -/
theorem c4_wildcardReExport_witness :
    (mapNode "" "a.ts" none ⟨[], [], []⟩
        ⟨SyntaxKind.exportDeclaration, [], [], ⟨"", ExportedWhat.names []⟩, some "./m",
          ⟨"./m", ExportedWhat.star⟩, [], false, [], none, "", 0⟩).exports
      = [] ++ ["*:" ++ "m"]
    ∧ (mapNode "" "a.ts" none ⟨[], [], []⟩
        ⟨SyntaxKind.exportDeclaration, [], [], ⟨"", ExportedWhat.names []⟩, some "./m",
          ⟨"./m", ExportedWhat.star⟩, [], false, [], none, "", 0⟩).imports
      = (addImportCore ⟨"./m", ExportedWhat.star⟩ "" "a.ts" none []).2
    ∧ (mapNode "" "a.ts" none ⟨[], [], []⟩
        ⟨SyntaxKind.exportDeclaration, [], [], ⟨"", ExportedWhat.names []⟩, some "./m",
          ⟨"./m", ExportedWhat.star⟩, [], false, [], none, "", 0⟩).exportLocations
      = [] ++ [⟨"*:" ++ "m", 0⟩] :=
  c4_wildcardReExport "" "a.ts" none ⟨[], [], []⟩
    ⟨SyntaxKind.exportDeclaration, [], [], ⟨"", ExportedWhat.names []⟩, some "./m",
      ⟨"./m", ExportedWhat.star⟩, [], false, [], none, "", 0⟩
    "m" (by rfl) (by rfl) (by rfl) (by rfl) (by rfl) (by decide)

/-- C5 (confirmed): a named re-export `export { x } from './m'` registers an
entry in `imports` under the resolved module key of `./m` and appends the
name list (`["x"]`) to `exports`. -/
theorem c5_namedReExport (rootDir path : String)
    (matcher : Option (String → Option String)) (st : MapState) (node : Node)
    (k : String) (ws : List String)
    (hkind : node.kind = SyntaxKind.exportDeclaration)
    (hspec : node.moduleSpecifier = some "./m")
    (hfw : node.exportFw = ⟨"./m", ExportedWhat.names ws⟩)
    (hdis : isNodeDisabledViaComment node = false)
    (hkey : (addImportCore ⟨"./m", ExportedWhat.names ws⟩ rootDir path matcher st.imports).1
      = some k)
    (hk : k ≠ "") :
    (mapNode rootDir path matcher st node).exports = st.exports ++ ws
    ∧ (mapNode rootDir path matcher st node).imports
        = (addImportCore ⟨"./m", ExportedWhat.names ws⟩ rootDir path matcher st.imports).2
    ∧ ∃ vs, (k, vs) ∈ (mapNode rootDir path matcher st node).imports := by
  have himp : (mapNode rootDir path matcher st node).imports
      = (addImportCore ⟨"./m", ExportedWhat.names ws⟩ rootDir path matcher st.imports).2 := by
    simp [mapNode, hkind, hspec, hfw, hdis, extractExportFromImport, hkey, jsTruthyStr, hk]
  refine ⟨?_, himp, ?_⟩
  · simp [mapNode, hkind, hspec, hfw, hdis, extractExportFromImport, hkey, jsTruthyStr, hk]
  · rw [himp]
    exact addImportCore_hasKey hkey

/-- Witness for C5 at the concrete statement `export { x } from './m'` in
`a.ts`: the resolved key is `m`. -/
theorem c5_namedReExport_witness :
    (mapNode "" "a.ts" none ⟨[], [], []⟩
        ⟨SyntaxKind.exportDeclaration, [], [], ⟨"", ExportedWhat.names []⟩, some "./m",
          ⟨"./m", ExportedWhat.names ["x"]⟩, [], false, [], none, "", 0⟩).exports
      = [] ++ ["x"]
    ∧ (mapNode "" "a.ts" none ⟨[], [], []⟩
        ⟨SyntaxKind.exportDeclaration, [], [], ⟨"", ExportedWhat.names []⟩, some "./m",
          ⟨"./m", ExportedWhat.names ["x"]⟩, [], false, [], none, "", 0⟩).imports
      = (addImportCore ⟨"./m", ExportedWhat.names ["x"]⟩ "" "a.ts" none []).2
    ∧ ∃ vs, ("m", vs) ∈ (mapNode "" "a.ts" none ⟨[], [], []⟩
        ⟨SyntaxKind.exportDeclaration, [], [], ⟨"", ExportedWhat.names []⟩, some "./m",
          ⟨"./m", ExportedWhat.names ["x"]⟩, [], false, [], none, "", 0⟩).imports :=
  c5_namedReExport "" "a.ts" none ⟨[], [], []⟩
    ⟨SyntaxKind.exportDeclaration, [], [], ⟨"", ExportedWhat.names []⟩, some "./m",
      ⟨"./m", ExportedWhat.names ["x"]⟩, [], false, [], none, "", 0⟩
    "m" ["x"] (by rfl) (by rfl) (by rfl) (by rfl) (by rfl) (by decide)

/-- C7 (confirmed): the statement dispatch of `mapFile` is first-match-wins.
A statement of one of the kinds plain-import, export-assignment, or export
declaration (without/with specifier) is claimed by that branch alone: its
processing is independent of its modifiers and of any dynamic-import content,
so the export-modifier branch and the dynamic-import scan never also fire for
it.  A statement claimed by none of the four branches can trigger both the
dynamic-import scan and the export-modifier branch at once, registering both
the scanned imports and the export. -/
theorem c7_dispatch (rootDir path : String)
    (matcher : Option (String → Option String)) :
    (∀ (st : MapState) (node : Node),
        (node.kind = SyntaxKind.importDeclaration ∨ node.kind = SyntaxKind.exportAssignment
          ∨ node.kind = SyntaxKind.exportDeclaration) →
        mapNode rootDir path matcher st node
          = mapNode rootDir path matcher st
              { node with modifiers := [], mayDynamic := false, dynamicImports := [] })
    ∧ (∀ (st : MapState) (node : Node) (n : String),
        node.kind = SyntaxKind.otherKind →
        isNodeDisabledViaComment node = false →
        node.mayDynamic = true →
        hasModifier node SyntaxKind.exportKeyword = true →
        hasModifier node SyntaxKind.defaultKeyword = false →
        node.declName = some n →
        n ≠ "" →
        (mapNode rootDir path matcher st node).exports = st.exports ++ [n]
        ∧ (mapNode rootDir path matcher st node).exportLocations
            = st.exportLocations ++ [⟨n, node.pos⟩]
        ∧ (mapNode rootDir path matcher st node).imports
            = node.dynamicImports.foldl
                (fun imps fw => (addImportCore fw rootDir path matcher imps).2)
                st.imports) := by
  constructor
  · intro st node hk
    obtain ⟨k, cs, ms, ifw, msp, efw, les, md, dyn, dn, en, pos⟩ := node
    rcases hk with h | h | h
    all_goals
      have h2 : k = _ := h
    all_goals
      subst h2
    all_goals rfl
  · intro st node n hkind hdis hmay hexp hdef hname hn
    refine ⟨?_, ?_, ?_⟩ <;>
      simp [mapNode, hkind, hdis, mayContainDynamicImports, hmay, hexp, hdef,
        hname, hn, addExport, addExportCore, extractExport]

/-- Witness for C7: a plain import statement decorated with an export
modifier and dynamic-import content is processed identically to the
bare import statement, and an otherwise-unclaimed exported statement with a
dynamic import registers both the export `f` and the scanned import. -/
theorem c7_dispatch_witness :
    (mapNode "" "a.ts" none ⟨[], [], []⟩
        ⟨SyntaxKind.importDeclaration, [], [SyntaxKind.exportKeyword],
          ⟨"./i", ExportedWhat.names ["v"]⟩, none, ⟨"", ExportedWhat.names []⟩, [], true,
          [⟨"./d", ExportedWhat.names ["z"]⟩], some "q", "", 1⟩
      = mapNode "" "a.ts" none ⟨[], [], []⟩
        ⟨SyntaxKind.importDeclaration, [], [],
          ⟨"./i", ExportedWhat.names ["v"]⟩, none, ⟨"", ExportedWhat.names []⟩, [], false,
          [], some "q", "", 1⟩)
    ∧ ((mapNode "" "a.ts" none ⟨[], [], []⟩
        ⟨SyntaxKind.otherKind, [], [SyntaxKind.exportKeyword], ⟨"", ExportedWhat.names []⟩,
          none, ⟨"", ExportedWhat.names []⟩, [], true,
          [⟨"./dyn", ExportedWhat.names ["d"]⟩], some "f", "", 3⟩).exports
      = [] ++ ["f"]
    ∧ (mapNode "" "a.ts" none ⟨[], [], []⟩
        ⟨SyntaxKind.otherKind, [], [SyntaxKind.exportKeyword], ⟨"", ExportedWhat.names []⟩,
          none, ⟨"", ExportedWhat.names []⟩, [], true,
          [⟨"./dyn", ExportedWhat.names ["d"]⟩], some "f", "", 3⟩).exportLocations
      = [] ++ [⟨"f", 3⟩]
    ∧ (mapNode "" "a.ts" none ⟨[], [], []⟩
        ⟨SyntaxKind.otherKind, [], [SyntaxKind.exportKeyword], ⟨"", ExportedWhat.names []⟩,
          none, ⟨"", ExportedWhat.names []⟩, [], true,
          [⟨"./dyn", ExportedWhat.names ["d"]⟩], some "f", "", 3⟩).imports
      = ([⟨"./dyn", ExportedWhat.names ["d"]⟩] : List FromWhat).foldl
          (fun imps fw => (addImportCore fw "" "a.ts" none imps).2) []) :=
  ⟨(c7_dispatch "" "a.ts" none).1 ⟨[], [], []⟩
      ⟨SyntaxKind.importDeclaration, [], [SyntaxKind.exportKeyword],
        ⟨"./i", ExportedWhat.names ["v"]⟩, none, ⟨"", ExportedWhat.names []⟩, [], true,
        [⟨"./d", ExportedWhat.names ["z"]⟩], some "q", "", 1⟩
      (Or.inl (by rfl)),
    (c7_dispatch "" "a.ts" none).2 ⟨[], [], []⟩
      ⟨SyntaxKind.otherKind, [], [SyntaxKind.exportKeyword], ⟨"", ExportedWhat.names []⟩,
        none, ⟨"", ExportedWhat.names []⟩, [], true,
        [⟨"./dyn", ExportedWhat.names ["d"]⟩], some "f", "", 3⟩
      "f" (by rfl) (by rfl) (by rfl) (by rfl) (by rfl) (by rfl) (by decide)⟩

/-- C10 (confirmed): a named (non-wildcard) re-export-from statement appends
the re-exported names to `exports` without appending anything to
`exportLocations`: the locations are unchanged while `exports` grows by the
number of names — strictly, when at least one name is re-exported. -/
theorem c10_reExportNoLocations (rootDir path : String)
    (matcher : Option (String → Option String)) (st : MapState) (node : Node)
    (s : String) (ws : List String)
    (hkind : node.kind = SyntaxKind.exportDeclaration)
    (hspec : node.moduleSpecifier = some s)
    (hfw : node.exportFw = ⟨s, ExportedWhat.names ws⟩)
    (hdis : isNodeDisabledViaComment node = false)
    (hkey : jsTruthyStr
        (addImportCore ⟨s, ExportedWhat.names ws⟩ rootDir path matcher st.imports).1
      = true)
    (hws : ws ≠ []) :
    (mapNode rootDir path matcher st node).exportLocations = st.exportLocations
    ∧ (mapNode rootDir path matcher st node).exports.length
        = st.exports.length + ws.length
    ∧ st.exports.length < (mapNode rootDir path matcher st node).exports.length := by
  have hexp : (mapNode rootDir path matcher st node).exports = st.exports ++ ws := by
    simp [mapNode, hkind, hspec, hfw, hdis, extractExportFromImport, hkey]
  have hloc : (mapNode rootDir path matcher st node).exportLocations
      = st.exportLocations := by
    simp [mapNode, hkind, hspec, hfw, hdis, extractExportFromImport, hkey]
  have hpos : 0 < ws.length := List.length_pos.mpr hws
  refine ⟨hloc, ?_, ?_⟩
  · rw [hexp, List.length_append]
  · rw [hexp, List.length_append]
    omega

/-- Witness for C10 at `export { x, y } from './n'` in `a.ts`: two names are
appended to `exports`, none to `exportLocations`. -/
theorem c10_reExportNoLocations_witness :
    (mapNode "" "a.ts" none ⟨[], ["e0"], [⟨"e0", 0⟩]⟩
        ⟨SyntaxKind.exportDeclaration, [], [], ⟨"", ExportedWhat.names []⟩, some "./n",
          ⟨"./n", ExportedWhat.names ["x", "y"]⟩, [], false, [], none, "", 7⟩).exportLocations
      = [⟨"e0", 0⟩]
    ∧ (mapNode "" "a.ts" none ⟨[], ["e0"], [⟨"e0", 0⟩]⟩
        ⟨SyntaxKind.exportDeclaration, [], [], ⟨"", ExportedWhat.names []⟩, some "./n",
          ⟨"./n", ExportedWhat.names ["x", "y"]⟩, [], false, [], none, "", 7⟩).exports.length
      = (["e0"] : List String).length + (["x", "y"] : List String).length
    ∧ (["e0"] : List String).length
        < (mapNode "" "a.ts" none ⟨[], ["e0"], [⟨"e0", 0⟩]⟩
            ⟨SyntaxKind.exportDeclaration, [], [], ⟨"", ExportedWhat.names []⟩, some "./n",
              ⟨"./n", ExportedWhat.names ["x", "y"]⟩, [], false, [], none, "",
              7⟩).exports.length :=
  c10_reExportNoLocations "" "a.ts" none ⟨[], ["e0"], [⟨"e0", 0⟩]⟩
    ⟨SyntaxKind.exportDeclaration, [], [], ⟨"", ExportedWhat.names []⟩, some "./n",
      ⟨"./n", ExportedWhat.names ["x", "y"]⟩, [], false, [], none, "", 7⟩
    "./n" ["x", "y"] (by rfl) (by rfl) (by rfl) (by rfl) (by decide) (by decide)

end TsUnusedExports
